import Mathlib

/-!
Shallow embedding of `src/chat_bot.py` (class `AlienBot`).

Strings are modelled as `List Char` (ASCII fragment of Python `str`).
The regular expressions of `AlienBot.INTENT_RE` are embedded as
deterministic matchers over character lists: every pattern there has the
shape `.*\bCORE.*` with `re.I`, so `re.search` succeeds iff the core
matches at some position preceded by a word boundary, and — because the
leading `.*` is greedy — a capturing group reports the match at the
rightmost such position.  Randomness (`random.choice`, `random.randint`)
is modelled by an explicit seed argument reduced modulo the size of the
range, and fallible operations (`random.choice` on an empty list,
`int()` on a non-numeric string, `input()` at EOF, an undefined name)
return `Option`/an explicit error value instead of raising.
-/

namespace AlienBotModel

abbrev Str := List Char

/-! ### Character classes (ASCII, matching Python `str.lower`, `\s`, `\d`, `\w`) -/

/-- ASCII apostrophe (written via its code point). -/
def apos : Char := Char.ofNat 39

def isWSChar (c : Char) : Bool := c.toNat = 32 || (9 ≤ c.toNat && c.toNat ≤ 13)

def isDigitChar (c : Char) : Bool := 48 ≤ c.toNat && c.toNat ≤ 57

def isAlphaChar (c : Char) : Bool :=
  (97 ≤ c.toNat && c.toNat ≤ 122) || (65 ≤ c.toNat && c.toNat ≤ 90)

def isWordChar (c : Char) : Bool := isAlphaChar c || isDigitChar c || c.toNat = 95

/-- Python `str.lower` on one ASCII character. -/
def lcChar (c : Char) : Char :=
  if 65 ≤ c.toNat && c.toNat ≤ 90 then Char.ofNat (c.toNat + 32) else c

/-- Python `str.upper` on one ASCII character. -/
def ucChar (c : Char) : Char :=
  if 97 ≤ c.toNat && c.toNat ≤ 122 then Char.ofNat (c.toNat - 32) else c

def lowerStr (s : Str) : Str := s.map lcChar

/-- Python `str.title`: a cased character becomes upper case after a
non-alphabetic character and lower case otherwise (ASCII fragment). -/
def titleAux : Bool → Str → Str
  | _, [] => []
  | prevAlpha, c :: rest =>
    (if isAlphaChar c then (if prevAlpha then lcChar c else ucChar c) else c)
      :: titleAux (isAlphaChar c) rest

def titleStr (s : Str) : Str := titleAux false s

/-- Python `str.strip()`: drop leading and trailing whitespace. -/
def pyStrip (s : Str) : Str :=
  (((s.dropWhile isWSChar).reverse).dropWhile isWSChar).reverse

/-- Python `str.split()` with no separator: whitespace runs split, empties dropped. -/
def splitWSAux : Str → Str → List Str
  | acc, [] => if acc = [] then [] else [acc.reverse]
  | acc, c :: rest =>
    if isWSChar c then
      (if acc = [] then splitWSAux [] rest else acc.reverse :: splitWSAux [] rest)
    else splitWSAux (c :: acc) rest

def splitWS (s : Str) : List Str := splitWSAux [] s

/-! ### Substring test (Python `in` on strings) -/

def startsWithB : Str → Str → Bool
  | [], _ => true
  | _ :: _, [] => false
  | a :: as_, b :: bs => a = b && startsWithB as_ bs

def subStrB (w : Str) : Str → Bool
  | [] => startsWithB w []
  | c :: rest => startsWithB w (c :: rest) || subStrB w rest

/-! ### Decimal numerals -/

def digitChar (d : Nat) : Char := Char.ofNat (48 + d)

/-- Fuel-driven decimal printer; the fuel only needs to dominate the number
of digits, so `natDigits` below passes `n` itself. -/
def natDigitsAux : Nat → Nat → Str
  | 0, _ => []
  | fuel + 1, n =>
    if n < 10 then [digitChar n]
    else natDigitsAux fuel (n / 10) ++ [digitChar (n % 10)]

/-- Decimal digits of a natural number, most significant first
(the characters of Python `f"{n}"`). -/
def natDigits (n : Nat) : Str := natDigitsAux (n + 1) n

def strToNat (s : Str) : Nat :=
  s.foldl (fun acc c => acc * 10 + (c.toNat - 48)) 0

/-- Python `int()` on the fragment relevant here: succeeds on a nonempty
string of ASCII digits, fails (`ValueError`) otherwise.  (Real `int()`
accepts more shapes; narrowing the success set is conservative for the
no-crash claims.) -/
def pyInt (s : Str) : Option Nat :=
  if s ≠ [] ∧ s.all isDigitChar then some (strToNat s) else none

def intRepr (i : Int) : Str :=
  if i < 0 then '-' :: natDigits i.natAbs else natDigits i.toNat

/-! ### Random primitives: the seed argument stands for one draw of the
process-wide random source. -/

/-- `random.choice`: raises `IndexError` on an empty sequence, modelled as `none`. -/
def pyChoice {α : Type} (l : List α) (r : Nat) : Option α := l.get? (r % l.length)

/-- `random.randint a b`: a uniform integer in `[a, b]`, both ends included. -/
def pyRandint (a b : Int) (r : Nat) : Int := a + ((r % (b - a + 1).toNat : Nat) : Int)

/-! ### Regex building blocks -/

/-- Consume a literal pattern (already lower case) case-insensitively. -/
def eatLit : Str → Str → Option Str
  | [], s => some s
  | _ :: _, [] => none
  | p :: ps, d :: ds => if lcChar d = p then eatLit ps ds else none

/-- Consume `\s+` (greedy; the following pattern element is never whitespace). -/
def eatWS1 : Str → Option Str
  | [] => none
  | c :: rest => if isWSChar c then some (rest.dropWhile isWSChar) else none

/-- Consume `(\d+)` (greedy, nonempty), returning the capture and the rest. -/
def takeDigits1 (s : Str) : Option (Str × Str) :=
  match s.takeWhile isDigitChar with
  | [] => none
  | d :: ds => some (d :: ds, s.dropWhile isDigitChar)

/-- The `\b` test at the seam between a word character just consumed and
the remaining input. -/
def boundaryOK : Str → Bool
  | [] => true
  | c :: _ => !isWordChar c

/-- Consume one optional character (`X?` where the following pattern
element can never also start with an `X`-class character). -/
def optConsume (p : Char → Bool) : Str → Str
  | [] => []
  | c :: rest => if p c then rest else c :: rest

/-- Search for a core pattern that starts with `\b` + a word character:
try every position whose predecessor is not a word character, preferring
the rightmost match (the greedy `.*` prefix of the source patterns). -/
def searchLastAux {α : Type} (core : Str → Option α) : Bool → Str → Option α
  | pw, [] => if pw then none else core []
  | pw, c :: rest =>
    match searchLastAux core (isWordChar c) rest with
    | some a => some a
    | none => if pw then none else core (c :: rest)

def searchLast {α : Type} (core : Str → Option α) (s : Str) : Option α :=
  searchLastAux core false s

/-! ### The six intent cores (`AlienBot.INTENT_RE`, in dict insertion order) -/

/-- Tail `\s+planet\b` shared by the three `describe_planet` alternatives. -/
def planetTail (s : Str) : Option Unit := do
  let a ← eatWS1 s
  let b ← eatLit "planet".data a
  if boundaryOK b then some () else none

/-- Alternative `et cetera['’]?s?` of `describe_planet`. -/
def etcAlt (s : Str) : Option Str := do
  let a ← eatLit "et cetera".data s
  let b := optConsume (fun c => c = apos || c = '’') a
  pure (optConsume (fun c => lcChar c = 's') b)

/-- Core of `INTENT_RE["describe_planet"]`:
`(?:your|alien|et cetera['’]?s?)\s+planet\b`. -/
def corePlanet (s : Str) : Option Unit :=
  (do planetTail (← eatLit "your".data s)) <|>
  (do planetTail (← eatLit "alien".data s)) <|>
  (do planetTail (← etcAlt s))

/-- Core of `INTENT_RE["why_here"]`: `why\s+are\s+you\s+(?:here|on\s+earth)\b`. -/
def coreWhy (s : Str) : Option Unit := do
  let a ← eatLit "why".data s
  let b ← eatWS1 a
  let c ← eatLit "are".data b
  let d ← eatWS1 c
  let e2 ← eatLit "you".data d
  let f ← eatWS1 e2
  let g ← eatLit "here".data f <|> (do
    let x ← eatLit "on".data f
    let y ← eatWS1 x
    eatLit "earth".data y)
  if boundaryOK g then some () else none

/-- Tail `\s+(\d+)\b` of the cube core. -/
def cubeTail (s : Str) : Option Str :=
  match eatWS1 s with
  | none => none
  | some a =>
    match takeDigits1 a with
    | none => none
    | some (ds, rest) => if boundaryOK rest then some ds else none

/-- The optional group `\s+the\s+number` of the cube core followed by the
tail; the regex engine tries this greedy variant first. -/
def cubeTheNumber (s1 : Str) : Option Str :=
  match eatWS1 s1 with
  | none => none
  | some a =>
    match eatLit "the".data a with
    | none => none
    | some b =>
      match eatWS1 b with
      | none => none
      | some c =>
        match eatLit "number".data c with
        | none => none
        | some d => cubeTail d

/-- Core of `INTENT_RE["cube"]`: `cube(?:\s+the\s+number)?\s+(\d+)\b`,
capturing the digit group. -/
def coreCube (s : Str) : Option Str :=
  match eatLit "cube".data s with
  | none => none
  | some s1 =>
    match cubeTheNumber s1 with
    | some ds => some ds
    | none => cubeTail s1

/-- Core of `INTENT_RE["weather"]`: `weather\s+(?:in|on|at)\s+([a-z]{2,})\b`
(case-insensitive), capturing the city group with its original casing. -/
def coreWeather (s : Str) : Option Str := do
  let a ← eatLit "weather".data s
  let b ← eatWS1 a
  let c ← eatLit "in".data b <|> eatLit "on".data b <|> eatLit "at".data b
  let d ← eatWS1 c
  let city := d.takeWhile isAlphaChar
  let rest := d.dropWhile isAlphaChar
  if 2 ≤ city.length then (if boundaryOK rest then some city else none) else none

/-- Core of `INTENT_RE["count Humans"]`: `(how\s+many|number\s+of)\s+humans?\b`. -/
def coreCount (s : Str) : Option Unit := do
  let a ← (do
      let x ← eatLit "how".data s
      let y ← eatWS1 x
      eatLit "many".data y) <|> (do
      let x ← eatLit "number".data s
      let y ← eatWS1 x
      eatLit "of".data y)
  let b ← eatWS1 a
  let c ← eatLit "human".data b
  let d := optConsume (fun ch => lcChar ch = 's') c
  if boundaryOK d then some () else none

/-- Core of `INTENT_RE["eat"]`: `what\s+do\s+(?:you|humans?)\s+eat\b`. -/
def coreEat (s : Str) : Option Unit := do
  let a ← eatLit "what".data s
  let b ← eatWS1 a
  let c ← eatLit "do".data b
  let d ← eatWS1 c
  let e2 ← eatLit "you".data d <|> (do
    let x ← eatLit "human".data d
    pure (optConsume (fun ch => lcChar ch = 's') x))
  let f ← eatWS1 e2
  let g ← eatLit "eat".data f
  if boundaryOK g then some () else none

/-- Core of the small-talk check `re.search(r"\bhow\s+are\s+you\b", t)`. -/
def coreHowAreYou (s : Str) : Option Unit := do
  let a ← eatLit "how".data s
  let b ← eatWS1 a
  let c ← eatLit "are".data b
  let d ← eatWS1 c
  let e2 ← eatLit "you".data d
  if boundaryOK e2 then some () else none

/-- Core of the small-talk check `re.search(r"\bwhere\s+are\s+you\s+from\b", t)`. -/
def coreWhereFrom (s : Str) : Option Unit := do
  let a ← eatLit "where".data s
  let b ← eatWS1 a
  let c ← eatLit "are".data b
  let d ← eatWS1 c
  let e2 ← eatLit "you".data d
  let f ← eatWS1 e2
  let g ← eatLit "from".data f
  if boundaryOK g then some () else none

/-! ### Word sets (`AlienBot.EXIT_WORDS`, `YES`, `NO`, `GREET_WORDS`);
only membership is used, so Python's set literals become lists. -/

/-- The element `"i'm out"` of `EXIT_WORDS` (ASCII apostrophe spelt out). -/
def imOutWord : Str := "i".data ++ [apos] ++ "m out".data

def EXIT_WORDS : List Str :=
  (["quit", "pause", "exit", "goodbye", "bye", "later", "got to go",
    "see you", "farewell", "catch you later"].map String.data)
    ++ [imOutWord, "i am out".data]

def YES_WORDS : List Str :=
  ["yes", "yeah", "yep", "y", "sure", "ok", "okay", "definitely", "absolutely",
   "of course", "certainly", "affirmative", "indeed", "yessir", "yea"].map String.data

def NO_WORDS : List Str :=
  ["no", "nope", "nah", "naw", "not really", "never", "nope", "negative",
   "nay", "absolutely not", "not at all"].map String.data

def GREET_WORDS : List Str :=
  ["hi", "hello", "hey", "greetings", "hiya", "yo", "salutations", "sup",
   "good morning", "good afternoon", "good evening", "howdy"].map String.data

/-! ### Fixed reply texts -/

def planetLines : List Str :=
  ["My home, Opidipus, has two violet moons and sings at night.",
   "We breathe neon and dream in ultraviolet.",
   "Picture a utopia of symbiotic species—no wars, only music."].map String.data

def whyHereLines : List Str :=
  ["Curiosity is the fuel of my civilisation.",
   "My queen commanded it—who could refuse?",
   "I was sent to study your emotional variability."].map String.data

def eatLines : List Str :=
  ["I feed on starlight and dark matter.",
   "My fuel cell runs on recycled comets.",
   "Today I had photon soup—delicious!"].map String.data

def greetReplies : List Str :=
  ["Hello again!", "Salutations! 🖖", "Greetings!"].map String.data

def humanCountMsg : Str :=
  "Last galactic census counted roughly 8 billion of you. Impressive!".data

def howAreYouMsg : Str :=
  "I’m functioning perfectly—my fuel cell is at 100 %! How are *you* feeling?".data

def whereFromMsg : Str :=
  "I hail from Opidipus, capital of the Wayward Galaxies. And you—where do you call home?".data

def yesMsg : Str := "Splendid!".data

def noMsg : Str := "Understood.".data

/-- `AlienBot._cube`: `f"{n} cubed is {n ** 3}. Isn’t that cool?"`. -/
def cubeMsg (n : Nat) : Str :=
  natDigits n ++ " cubed is ".data ++ natDigits (n ^ 3) ++ ". Isn’t that cool?".data

/-- `AlienBot._weather`: `f"My sensors say {city.title()} is {temp} °C today—probably."`. -/
def weatherMsg (city : Str) (temp : Int) : Str :=
  "My sensors say ".data ++ titleStr city ++ " is ".data ++ intRepr temp
    ++ " °C today—probably.".data

def farewellMsg : Str := "\nSafe travels across the stars ✨".data

def bannerLines : List Str :=
  ['╔' :: List.replicate 62 '═' ++ ['╗'],
   "║  Hello Earthling!  I’m Etcetera from the Wayward Galaxies. ║".data,
   "║  I’d love to learn about your planet.  (Say bye to exit.)  ║".data,
   '╚' :: List.replicate 62 '═' ++ ['╝']]

/-! ### Mutable bot state: the question bank (`question_bank.values()`) and the
asked-set -/

structure BotState where
  bank : List (List Str)
  asked : List Str
deriving DecidableEq

/-- `AlienBot.next_question`: draw from the pool of not-yet-asked questions,
clearing the asked-set first when the pool is exhausted; `random.choice` on an
empty pool (entirely empty bank) raises, modelled as `none`. -/
def nextQuestion (st : BotState) (r : Nat) : Option (Str × BotState) :=
  let pool := st.bank.flatten.filter (fun q => !(st.asked.contains q))
  if pool.isEmpty then
    let asked0 : List Str := []
    let pool2 := st.bank.flatten
    (pyChoice pool2 r).map (fun q => (q, ⟨st.bank, asked0.insert q⟩))
  else
    (pyChoice pool r).map (fun q => (q, ⟨st.bank, st.asked.insert q⟩))

/-! ### Reply engine -/

inductive IntentHit where
  | describePlanet
  | whyHere
  | cube (ds : Str)
  | weather (city : Str)
  | countHumans
  | eatIntent
deriving DecidableEq

/-- The `for intent, pattern in self.INTENT_RE.items()` loop of `_reply`:
patterns tried in dict insertion order against the raw text, first match wins. -/
def firstIntent (text : Str) : Option IntentHit :=
  if (searchLast corePlanet text).isSome then some .describePlanet
  else if (searchLast coreWhy text).isSome then some .whyHere
  else
    match searchLast coreCube text with
    | some ds => some (.cube ds)
    | none =>
      match searchLast coreWeather text with
      | some city => some (.weather city)
      | none =>
        if (searchLast coreCount text).isSome then some .countHumans
        else if (searchLast coreEat text).isSome then some .eatIntent
        else none

/-- The intent handlers `_describe_planet`, `_why_here`, `_cube`, `_weather`,
`_human_count`, `_eat`; the state is untouched by all of them. -/
def runIntent (st : BotState) (hit : IntentHit) (r : Nat) : Option (Str × BotState) :=
  match hit with
  | .describePlanet => (pyChoice planetLines r).map (fun s => (s, st))
  | .whyHere => (pyChoice whyHereLines r).map (fun s => (s, st))
  | .cube ds => (pyInt ds).map (fun n => (cubeMsg n, st))
  | .weather city => some (weatherMsg city (pyRandint (-15) 40 r), st)
  | .countHumans => some (humanCountMsg, st)
  | .eatIntent => (pyChoice eatLines r).map (fun s => (s, st))

/-- `AlienBot._reply`: intents on the raw text, then small talk, one-word
greeting, yes/no on the lowercased text, else a fresh question.  `none` models
an uncaught exception inside a handler. -/
def replyBot (st : BotState) (text : Str) (r : Nat) : Option (Str × BotState) :=
  let t := lowerStr text
  match firstIntent text with
  | some hit => runIntent st hit r
  | none =>
    if (searchLast coreHowAreYou t).isSome then some (howAreYouMsg, st)
    else if (searchLast coreWhereFrom t).isSome then some (whereFromMsg, st)
    else
      let tokens := splitWS t
      if tokens.length = 1 ∧ tokens.getD 0 [] ∈ GREET_WORDS then
        (pyChoice greetReplies r).map (fun s => (s, st))
      else if t ∈ YES_WORDS then some (yesMsg, st)
      else if t ∈ NO_WORDS then some (noMsg, st)
      else nextQuestion st r

/-! ### Session loop -/

/-- Python exceptions that the modelled code can raise. -/
inductive PyExc where
  | nameError
  | eofError
  | indexError
deriving DecidableEq

/-- `AlienBot._wants_exit`: some exit word is a substring of the lowercased text. -/
def wantsExit (text : Str) : Bool :=
  EXIT_WORDS.any (fun w => subStrB w (lowerStr text))

/-- `AlienBot.chat`: read a line, skip blanks, stop on exit words, else print
the reply.  Returns the printed replies, the final state, and `none` on a
normal `return` (exit word seen) or `some e` when input runs out (`EOFError`)
or a handler raises. -/
def chatLoop : BotState → List Str → (Nat → Nat) → Nat → List Str × BotState × Option PyExc
  | st, [], _, _ => ([], st, some PyExc.eofError)
  | st, line :: rest, rs, i =>
    let user := pyStrip line
    if user = [] then chatLoop st rest rs i
    else if wantsExit user then ([], st, none)
    else
      match replyBot st user (rs i) with
      | none => ([], st, some PyExc.indexError)
      | some (out, st2) =>
        let (outs, stF, e) := chatLoop st2 rest rs (i + 1)
        (out :: outs, stF, e)

/-- `AlienBot._ask_name` up to its greeting print: strip the answer, default to
`"Earthling"` when blank, produce the name and the printed greeting string. -/
def askName (raw : Str) : Str × Str :=
  let ans := pyStrip raw
  let nm := if ans = [] then "Earthling".data else ans
  (nm, "Nice to meet you, ".data ++ nm ++ "!\n".data)

/-- `AlienBot._show_capabilities`: the source body evaluates
`textwrap.dedent(...)`, but `textwrap` is never imported (the file imports only
`json`, `random`, `os`, `re`, `typing`), so the call raises `NameError`. -/
def showCapabilities : Except PyExc (List Str) := Except.error PyExc.nameError

/-- `AlienBot.run`: banner, `_ask_name` (which greets, then calls
`_show_capabilities`), `chat`, farewell.  Returns everything printed and the
exception, if any, that aborted the session. -/
def runBot (bank : List (List Str)) (inputs : List Str) (rs : Nat → Nat) :
    List Str × Option PyExc :=
  match inputs with
  | [] => (bannerLines, some PyExc.eofError)
  | nameLine :: rest =>
    let (_nm, greet) := askName nameLine
    match showCapabilities with
    | Except.error e => (bannerLines ++ [greet], some e)
    | Except.ok caps =>
      match chatLoop ⟨bank, []⟩ rest rs 0 with
      | (outs, _, some e) => (bannerLines ++ [greet] ++ caps ++ outs, some e)
      | (outs, _, none) => (bannerLines ++ [greet] ++ caps ++ outs ++ [farewellMsg], none)

/-! ### Staged dispatcher, written from the specification's words
(section 4.4): five stages tried in order, first match wins.  Used only to
compare against `replyBot`. -/

/-- Spec stage 1: the Intent Matcher. -/
def stageIntents (st : BotState) (text : Str) (r : Nat) : Option (Option (Str × BotState)) :=
  (firstIntent text).map (fun hit => runIntent st hit r)

/-- Spec stage 2: the fixed small-talk phrase checks. -/
def stageSmallTalk (st : BotState) (t : Str) : Option (Option (Str × BotState)) :=
  if (searchLast coreHowAreYou t).isSome then some (some (howAreYouMsg, st))
  else if (searchLast coreWhereFrom t).isSome then some (some (whereFromMsg, st))
  else none

/-- Spec stage 3: the greeting check, firing exactly when the input is a
single token belonging to the greeting word set. -/
def stageGreeting (st : BotState) (t : Str) (r : Nat) : Option (Option (Str × BotState)) :=
  match splitWS t with
  | [tok] =>
    if tok ∈ GREET_WORDS then some ((pyChoice greetReplies r).map (fun s => (s, st)))
    else none
  | _ => none

/-- Spec stage 4: the yes/no check, exact match on the lowercased input. -/
def stageYesNo (st : BotState) (t : Str) : Option (Option (Str × BotState)) :=
  if t ∈ YES_WORDS then some (some (yesMsg, st))
  else if t ∈ NO_WORDS then some (some (noMsg, st))
  else none

/-- The dispatcher as the specification words it: stages in order, the result
of the first stage that matches, stage 5 (fallback) being a fresh question. -/
def replyStaged (st : BotState) (text : Str) (r : Nat) : Option (Str × BotState) :=
  (stageIntents st text r
    <|> stageSmallTalk st (lowerStr text)
    <|> stageGreeting st (lowerStr text) r
    <|> stageYesNo st (lowerStr text)
    <|> some (nextQuestion st r)).join

/-! ### Helper lemmas -/

theorem startsWithB_iff (w s : Str) : startsWithB w s = true ↔ w <+: s := by
  induction w generalizing s with
  | nil => simp [startsWithB, List.nil_prefix]
  | cons a as ih =>
    cases s with
    | nil => simp [startsWithB, List.prefix_nil]
    | cons b bs => simp [startsWithB, List.cons_prefix_cons, ih]

theorem subStrB_iff (w s : Str) : subStrB w s = true ↔ w <:+: s := by
  induction s with
  | nil =>
    simp only [subStrB, startsWithB_iff]
    constructor
    · intro h
      exact h.isInfix
    · rintro ⟨s, t, hst⟩
      rw [List.prefix_nil]
      have h3 : s = [] ∧ w = [] ∧ t = [] := by simpa [List.append_eq_nil] using hst
      exact h3.2.1
  | cons c rest ih =>
    simp [subStrB, startsWithB_iff, ih, List.infix_cons_iff]

theorem pyChoice_mem {α : Type} {l : List α} {r : Nat} {a : α}
    (h : pyChoice l r = some a) : a ∈ l := List.get?_mem h

/-- Unfolding of `nextQuestion` with its lets reduced away. -/
theorem nextQuestion_eq (st : BotState) (r : Nat) :
    nextQuestion st r =
      if (st.bank.flatten.filter (fun x => !(st.asked.contains x))).isEmpty then
        (pyChoice st.bank.flatten r).map
          (fun q => (q, (⟨st.bank, List.insert q []⟩ : BotState)))
      else
        (pyChoice (st.bank.flatten.filter (fun x => !(st.asked.contains x))) r).map
          (fun q => (q, (⟨st.bank, List.insert q st.asked⟩ : BotState))) := rfl

theorem pyChoice_isSome {α : Type} (l : List α) (r : Nat) (h : l ≠ []) :
    ∃ a, pyChoice l r = some a ∧ a ∈ l := by
  have hlen : 0 < l.length := List.length_pos.2 h
  have hlt : r % l.length < l.length := Nat.mod_lt _ hlen
  refine ⟨l.get ⟨r % l.length, hlt⟩, ?_, l.get_mem _ _⟩
  exact List.get?_eq_get hlt

/-! ## Claim theorems -/

/-- C1 (code_bug evidence): on the end-to-end input sequence
`["Ann", "why are you here?", "cube 4", "bye"]` the session prints the banner
and the greeting "Nice to meet you, Ann!" and then aborts with `NameError`
(`_show_capabilities` evaluates `textwrap.dedent`, but `textwrap` is never
imported); no why_here reply, no cube reply and no farewell are printed. -/
theorem run_ann_session_crashes (bank : List (List Str)) (rs : Nat → Nat) :
    runBot bank ["Ann".data, "why are you here?".data, "cube 4".data, "bye".data] rs
      = (bannerLines ++ ["Nice to meet you, Ann!\n".data], some PyExc.nameError)
    ∧ farewellMsg ∉ (bannerLines ++ ["Nice to meet you, Ann!\n".data])
    ∧ (∀ l ∈ whyHereLines, l ∉ (bannerLines ++ ["Nice to meet you, Ann!\n".data]))
    ∧ cubeMsg 4 ∉ (bannerLines ++ ["Nice to meet you, Ann!\n".data]) := by
  refine ⟨rfl, by decide, ?_, by decide⟩
  intro l hl
  fin_cases hl <;> decide

/-- C2: with a nonempty bank, `next_question` always returns a question of the
bank; while the remaining pool is nonempty the question was not in the
asked-set and gets recorded there; when the pool is exhausted, the asked-set is
reset (so the full bank became eligible again) and holds just the fresh draw. -/
theorem nextQuestion_no_repeat (st : BotState) (r : Nat)
    (hbank : st.bank.flatten ≠ []) :
    ∃ q st2, nextQuestion st r = some (q, st2)
      ∧ q ∈ st.bank.flatten
      ∧ (st.bank.flatten.filter (fun x => !(st.asked.contains x)) ≠ [] →
          q ∉ st.asked ∧ st2.asked = List.insert q st.asked)
      ∧ (st.bank.flatten.filter (fun x => !(st.asked.contains x)) = [] →
          st2.asked = [q]) := by
  rw [nextQuestion_eq]
  by_cases hpool : (st.bank.flatten.filter (fun x => !(st.asked.contains x))) = []
  · obtain ⟨q, hq, hmem⟩ := pyChoice_isSome st.bank.flatten r hbank
    rw [if_pos (by simpa [List.isEmpty_iff] using hpool), hq]
    refine ⟨q, _, rfl, hmem, fun hc => absurd hpool hc, fun _ => ?_⟩
    simp [List.insert]
  · obtain ⟨q, hq, hmem⟩ :=
      pyChoice_isSome (st.bank.flatten.filter (fun x => !(st.asked.contains x))) r hpool
    rw [if_neg (by simpa [List.isEmpty_iff] using hpool), hq]
    have hmem2 := List.mem_filter.1 hmem
    refine ⟨q, _, rfl, hmem2.1, fun _ => ⟨?_, rfl⟩, fun hc => absurd hc hpool⟩
    intro hqa
    have hb := hmem2.2
    simp only [Bool.not_eq_true'] at hb
    have helem : List.elem q st.asked = false := hb
    have htrue : List.elem q st.asked = true := List.elem_iff.mpr hqa
    rw [helem] at htrue
    cases htrue

/-- C2 witness: a concrete draw from a one-question bank. -/
theorem nextQuestion_no_repeat_witness :
    ∃ q st2, nextQuestion ⟨[["q1".data]], []⟩ 0 = some (q, st2)
      ∧ q ∈ ([["q1".data]] : List (List Str)).flatten
      ∧ (([["q1".data]] : List (List Str)).flatten.filter
            (fun x => !(([] : List Str).contains x)) ≠ [] →
          q ∉ ([] : List Str) ∧ st2.asked = List.insert q [])
      ∧ (([["q1".data]] : List (List Str)).flatten.filter
            (fun x => !(([] : List Str).contains x)) = [] →
          st2.asked = [q]) :=
  nextQuestion_no_repeat ⟨[["q1".data]], []⟩ 0 (by decide)

/-- C3: whenever some exit word occurs as a substring of the lowercased
(stripped) input line, the chatting loop returns at once — no reply is printed
for that line or any later one, and the state is left unchanged. -/
theorem exit_word_ends_loop (st : BotState) (line : Str) (rest : List Str)
    (rs : Nat → Nat) (i : Nat)
    (h : ∃ w ∈ EXIT_WORDS, w <:+: lowerStr (pyStrip line)) :
    chatLoop st (line :: rest) rs i = ([], st, none) := by
  obtain ⟨w, hw, hsub⟩ := h
  have hwne : w ≠ [] := by
    have hall : ∀ u ∈ EXIT_WORDS, u ≠ [] := by decide
    exact hall w hw
  have hx : wantsExit (pyStrip line) = true := by
    unfold wantsExit
    rw [List.any_eq_true]
    exact ⟨w, hw, (subStrB_iff _ _).2 hsub⟩
  have hne : ¬(pyStrip line = []) := by
    intro h0
    rw [h0] at hsub
    obtain ⟨s, t, hst⟩ := hsub
    have h3 : s = [] ∧ w = [] ∧ t = [] := by
      simpa [lowerStr, List.append_eq_nil] using hst
    exact hwne h3.2.1
  simp [chatLoop, hne, hx]

/-- C3 witness: "ok BYE then" ends the loop with no reply. -/
theorem exit_word_ends_loop_witness :
    chatLoop ⟨[], []⟩ ["ok BYE then".data, "and more".data] (fun _ => 0) 0
      = ([], ⟨[], []⟩, none) :=
  exit_word_ends_loop ⟨[], []⟩ "ok BYE then".data ["and more".data] (fun _ => 0) 0
    ⟨"bye".data, by decide, by decide⟩

/-- C7: yes/no classification is exact match on the lowercased input: "yes"
gets the fixed acknowledgement, while "yesplease" matches no intent, greeting
or yes/no set and falls through to the fallback (a fresh question). -/
theorem yes_exact_match (st : BotState) (r : Nat) :
    replyBot st "yes".data r = some (yesMsg, st)
    ∧ firstIntent "yesplease".data = none
    ∧ replyBot st "yesplease".data r = nextQuestion st r :=
  ⟨rfl, rfl, rfl⟩

/-- C9: a blank (whitespace-only) name answer defaults the session name to
"Earthling", and the session greets with "Nice to meet you, Earthling!". -/
theorem blank_name_defaults (raw : Str) (h : pyStrip raw = []) :
    askName raw = ("Earthling".data, "Nice to meet you, Earthling!\n".data)
    ∧ ∀ (bank : List (List Str)) (rest : List Str) (rs : Nat → Nat),
        (runBot bank (raw :: rest) rs).1
          = bannerLines ++ ["Nice to meet you, Earthling!\n".data] := by
  have h1 : askName raw = ("Earthling".data, "Nice to meet you, Earthling!\n".data) := by
    simp [askName, h]
  refine ⟨h1, fun bank rest rs => ?_⟩
  simp [runBot, h1, showCapabilities]

/-- C9 witness: the theorem applied to the whitespace-only answer "  ". -/
theorem blank_name_defaults_witness :
    askName "  ".data = ("Earthling".data, "Nice to meet you, Earthling!\n".data)
    ∧ (runBot [] ["  ".data] (fun _ => 0)).1
        = bannerLines ++ ["Nice to meet you, Earthling!\n".data] := by
  have h := blank_name_defaults "  ".data (by decide)
  exact ⟨h.1, h.2 [] [] (fun _ => 0)⟩

/-- C10: `next_question` keeps the asked-set inside the bank and records the
returned question in it; on an entirely empty bank the selection from the
empty pool fails (raises) instead of returning a value. -/
theorem nextQuestion_invariant (st : BotState) (r : Nat)
    (hsub : ∀ q ∈ st.asked, q ∈ st.bank.flatten) :
    (st.bank.flatten = [] → nextQuestion st r = none)
    ∧ (∀ q st2, nextQuestion st r = some (q, st2) →
        q ∈ st.bank.flatten ∧ q ∈ st2.asked ∧ st2.bank = st.bank
        ∧ (∀ p ∈ st2.asked, p ∈ st.bank.flatten)) := by
  constructor
  · intro h0
    rw [nextQuestion_eq]
    simp [h0, pyChoice]
  · intro q st2 hq
    rw [nextQuestion_eq] at hq
    by_cases hpool : (st.bank.flatten.filter (fun x => !(st.asked.contains x))) = []
    · rw [if_pos (by simpa [List.isEmpty_iff] using hpool)] at hq
      cases hc : pyChoice st.bank.flatten r with
      | none => rw [hc] at hq; cases hq
      | some q0 =>
        rw [hc, Option.map_some'] at hq
        have hpair := Option.some.inj hq
        have hq1 : q0 = q := congrArg Prod.fst hpair
        have hq2 : (⟨st.bank, List.insert q0 []⟩ : BotState) = st2 := congrArg Prod.snd hpair
        subst hq1
        subst hq2
        have hmem := pyChoice_mem hc
        refine ⟨hmem, ?_, rfl, ?_⟩
        · show q0 ∈ List.insert q0 ([] : List Str)
          exact List.mem_insert_self _ _
        · intro p hp
          have hp2 : p ∈ List.insert q0 ([] : List Str) := hp
          rcases List.mem_insert_iff.1 hp2 with rfl | hp3
          · exact hmem
          · simp at hp3
    · rw [if_neg (by simpa [List.isEmpty_iff] using hpool)] at hq
      cases hc : pyChoice (st.bank.flatten.filter (fun x => !(st.asked.contains x))) r with
      | none => rw [hc] at hq; cases hq
      | some q0 =>
        rw [hc, Option.map_some'] at hq
        have hpair := Option.some.inj hq
        have hq1 : q0 = q := congrArg Prod.fst hpair
        have hq2 : (⟨st.bank, List.insert q0 st.asked⟩ : BotState) = st2 := congrArg Prod.snd hpair
        subst hq1
        subst hq2
        have hmem := (List.mem_filter.1 (pyChoice_mem hc)).1
        refine ⟨hmem, ?_, rfl, ?_⟩
        · show q0 ∈ List.insert q0 st.asked
          exact List.mem_insert_self _ _
        · intro p hp
          have hp2 : p ∈ List.insert q0 st.asked := hp
          rcases List.mem_insert_iff.1 hp2 with rfl | hp3
          · exact hmem
          · exact hsub p hp3

/-- C10 witness: the invariant theorem applied to an empty bank. -/
theorem nextQuestion_invariant_witness : nextQuestion ⟨[], []⟩ 0 = none :=
  (nextQuestion_invariant ⟨[], []⟩ 0 (by simp)).1 rfl

/-! ### Lemmas about the rightmost-match search -/

theorem searchLastAux_some {α : Type} (core : Str → Option α) :
    ∀ (s : Str) (pw : Bool) (a : α), searchLastAux core pw s = some a →
      ∃ l, l <:+ s ∧ core l = some a := by
  intro s
  induction s with
  | nil =>
    intro pw a h
    simp only [searchLastAux] at h
    by_cases hpw : pw
    · rw [if_pos hpw] at h; cases h
    · rw [if_neg hpw] at h
      exact ⟨[], List.suffix_refl _, h⟩
  | cons c rest ih =>
    intro pw a h
    simp only [searchLastAux] at h
    cases hrec : searchLastAux core (isWordChar c) rest with
    | some b =>
      rw [hrec] at h
      obtain ⟨l, hl, hc2⟩ := ih _ _ hrec
      obtain rfl : b = a := Option.some.inj h
      exact ⟨l, List.suffix_cons_iff.mpr (Or.inr hl), hc2⟩
    | none =>
      rw [hrec] at h
      by_cases hpw : pw
      · rw [if_pos hpw] at h; cases h
      · rw [if_neg hpw] at h
        exact ⟨c :: rest, List.suffix_refl _, h⟩

theorem searchLastAux_none {α : Type} (core : Str → Option α) :
    ∀ (s : Str) (pw : Bool), (∀ l, l <:+ s → core l = none) →
      searchLastAux core pw s = none := by
  intro s
  induction s with
  | nil =>
    intro pw h
    by_cases hpw : pw <;>
      simp [searchLastAux, hpw, h [] (List.suffix_refl _)]
  | cons c rest ih =>
    intro pw h
    have hrec := ih (isWordChar c) (fun l hl => h l (List.suffix_cons_iff.mpr (Or.inr hl)))
    by_cases hpw : pw <;>
      simp [searchLastAux, hrec, hpw, h _ (List.suffix_refl _)]

theorem searchLast_eq_head {α : Type} (core : Str → Option α) (s : Str) (a : α)
    (h1 : core s = some a) (h2 : ∀ l, l <:+ s → l ≠ s → core l = none) :
    searchLast core s = some a := by
  cases s with
  | nil => simp [searchLast, searchLastAux, h1]
  | cons c rest =>
    have hrec : searchLastAux core (isWordChar c) rest = none := by
      apply searchLastAux_none
      intro l hl
      apply h2 l (List.suffix_cons_iff.mpr (Or.inr hl))
      intro heq
      have hlen := hl.length_le
      rw [heq] at hlen
      simp at hlen
    simp [searchLast, searchLastAux, hrec, h1]

theorem suffix_append_cases {α : Type} (p s l : List α) (h : l <:+ p ++ s) :
    l <:+ s ∨ ∃ q, q <:+ p ∧ q ≠ [] ∧ l = q ++ s := by
  induction p with
  | nil => exact Or.inl (by simpa using h)
  | cons a p2 ih =>
    rcases List.suffix_cons_iff.mp h with heq | hsuf
    · exact Or.inr ⟨a :: p2, List.suffix_refl _, List.cons_ne_nil _ _, by simpa using heq⟩
    · rcases ih hsuf with h1 | ⟨q, hq, hne, rfl⟩
      · exact Or.inl h1
      · exact Or.inr ⟨q, List.suffix_cons_iff.mpr (Or.inr hq), hne, rfl⟩

/-! ### Digit-string facts about the cube capture -/

theorem cubeTail_digits (t ds : Str) (ht : cubeTail t = some ds) :
    ds ≠ [] ∧ ∀ c ∈ ds, isDigitChar c = true := by
  unfold cubeTail at ht
  cases he : eatWS1 t with
  | none => simp [he] at ht
  | some a =>
    simp only [he] at ht
    unfold takeDigits1 at ht
    cases htw : a.takeWhile isDigitChar with
    | nil => simp [htw] at ht
    | cons d tl =>
      simp only [htw] at ht
      by_cases hb : boundaryOK (a.dropWhile isDigitChar) = true
      · rw [if_pos hb] at ht
        obtain rfl : d :: tl = ds := Option.some.inj ht
        refine ⟨List.cons_ne_nil _ _, fun c hc => ?_⟩
        have hc2 : c ∈ a.takeWhile isDigitChar := by rw [htw]; exact hc
        exact List.mem_takeWhile_imp hc2
      · rw [if_neg hb] at ht; cases ht

theorem cubeTheNumber_digits (t ds : Str) (ht : cubeTheNumber t = some ds) :
    ds ≠ [] ∧ ∀ c ∈ ds, isDigitChar c = true := by
  unfold cubeTheNumber at ht
  cases h1 : eatWS1 t with
  | none => simp [h1] at ht
  | some a =>
    simp only [h1] at ht
    cases h2 : eatLit "the".data a with
    | none => simp [h2] at ht
    | some b =>
      simp only [h2] at ht
      cases h3 : eatWS1 b with
      | none => simp [h3] at ht
      | some c =>
        simp only [h3] at ht
        cases h4 : eatLit "number".data c with
        | none => simp [h4] at ht
        | some d =>
          simp only [h4] at ht
          exact cubeTail_digits d ds ht

theorem coreCube_digits (s ds : Str) (h : coreCube s = some ds) :
    ds ≠ [] ∧ ∀ c ∈ ds, isDigitChar c = true := by
  unfold coreCube at h
  cases h1 : eatLit "cube".data s with
  | none => simp [h1] at h
  | some s1 =>
    simp only [h1] at h
    cases h2 : cubeTheNumber s1 with
    | some ds2 =>
      simp only [h2] at h
      obtain rfl : ds2 = ds := Option.some.inj h
      exact cubeTheNumber_digits s1 _ h2
    | none =>
      simp only [h2] at h
      exact cubeTail_digits s1 ds h

/-- Inversion of the intent loop when it reports the cube intent. -/
theorem firstIntent_cube_inv (text ds : Str)
    (h : firstIntent text = some (.cube ds)) :
    searchLast coreCube text = some ds := by
  unfold firstIntent at h
  by_cases h1 : (searchLast corePlanet text).isSome
  · rw [if_pos h1] at h; simp at h
  · rw [if_neg h1] at h
    by_cases h2 : (searchLast coreWhy text).isSome
    · rw [if_pos h2] at h; simp at h
    · rw [if_neg h2] at h
      cases h3 : searchLast coreCube text with
      | some ds2 =>
        rw [h3] at h
        simp only [Option.some.injEq, IntentHit.cube.injEq] at h
        rw [h]
      | none =>
        rw [h3] at h
        cases h4 : searchLast coreWeather text with
        | some c2 => rw [h4] at h; simp at h
        | none =>
          rw [h4] at h
          by_cases h5 : (searchLast coreCount text).isSome
          · rw [if_pos h5] at h; simp at h
          · rw [if_neg h5] at h
            by_cases h6 : (searchLast coreEat text).isSome
            · rw [if_pos h6] at h; simp at h
            · rw [if_neg h6] at h; cases h

/-- C5: the cube capture group `(\d+)` guarantees that whatever reaches the
cube handler parses as an integer: whenever the intent loop reports the cube
intent, the captured group is a nonempty digit string, `int()` on it succeeds,
and the reply is produced without a crash. -/
theorem cube_parse_safe (text ds : Str)
    (h : firstIntent text = some (.cube ds)) :
    ds ≠ [] ∧ ds.all isDigitChar = true ∧ pyInt ds = some (strToNat ds)
    ∧ ∀ (st : BotState) (r : Nat),
        replyBot st text r = some (cubeMsg (strToNat ds), st) := by
  have hs := firstIntent_cube_inv text ds h
  unfold searchLast at hs
  obtain ⟨l, _, hcore⟩ := searchLastAux_some coreCube text false ds hs
  obtain ⟨hne, hdig⟩ := coreCube_digits l ds hcore
  have hall : ds.all isDigitChar = true := by
    rw [List.all_eq_true]; exact hdig
  have hpy : pyInt ds = some (strToNat ds) := by
    unfold pyInt
    rw [if_pos ⟨hne, hall⟩]
  refine ⟨hne, hall, hpy, fun st r => ?_⟩
  have hr : replyBot st text r = runIntent st (IntentHit.cube ds) r := by
    unfold replyBot
    rw [h]
  rw [hr]
  show (pyInt ds).map (fun n => (cubeMsg n, st)) = some (cubeMsg (strToNat ds), st)
  rw [hpy]
  rfl

/-- C5 witness: the concrete input "cube 4". -/
theorem cube_parse_safe_witness :
    pyInt "4".data = some (strToNat "4".data)
    ∧ replyBot ⟨[], []⟩ "cube 4".data 0 = some (cubeMsg (strToNat "4".data), ⟨[], []⟩) :=
  ⟨(cube_parse_safe "cube 4".data "4".data (by decide)).2.2.1,
   (cube_parse_safe "cube 4".data "4".data (by decide)).2.2.2 ⟨[], []⟩ 0⟩

/-- C6: whenever the intent loop reports the weather intent, the reply embeds
a temperature in `[-15, 40]` (for every outcome of the random source) and the
captured city appears title-cased in the reply. -/
theorem weather_reply (st : BotState) (text city : Str) (r : Nat)
    (h : firstIntent text = some (.weather city)) :
    replyBot st text r = some (weatherMsg city (pyRandint (-15) 40 r), st)
    ∧ (-15 : Int) ≤ pyRandint (-15) 40 r
    ∧ pyRandint (-15) 40 r ≤ 40
    ∧ titleStr city <:+: weatherMsg city (pyRandint (-15) 40 r) := by
  have heq : pyRandint (-15) 40 r = -15 + ((r % 56 : Nat) : Int) := rfl
  have hk : r % 56 < 56 := Nat.mod_lt _ (by omega)
  refine ⟨?_, ?_, ?_, ?_⟩
  · have hr : replyBot st text r = runIntent st (IntentHit.weather city) r := by
      unfold replyBot
      rw [h]
    rw [hr]
    rfl
  · rw [heq]; omega
  · rw [heq]; omega
  · exact ⟨"My sensors say ".data,
      " is ".data ++ intRepr (pyRandint (-15) 40 r) ++ " °C today—probably.".data,
      by simp [weatherMsg, List.append_assoc]⟩

/-- C6 witness: the concrete input "weather in paris" with seed 7. -/
theorem weather_reply_witness :
    replyBot ⟨[], []⟩ "weather in paris".data 7
        = some (weatherMsg "paris".data (pyRandint (-15) 40 7), ⟨[], []⟩)
    ∧ (-15 : Int) ≤ pyRandint (-15) 40 7
    ∧ pyRandint (-15) 40 7 ≤ 40
    ∧ titleStr "paris".data <:+: weatherMsg "paris".data (pyRandint (-15) 40 7) :=
  weather_reply ⟨[], []⟩ "weather in paris".data "paris".data 7 (by decide)

/-- C8: for every non-empty, non-exit input, the reply dispatcher equals the
five-stage first-match-wins pipeline written from the specification: regex
intents, then the fixed small-talk phrases, then the greeting check (firing
exactly on a single greeting token), then yes/no, then a fresh question. -/
theorem reply_dispatch_stages (st : BotState) (text : Str) (r : Nat)
    (_hne : text ≠ []) (_hexit : wantsExit text = false) :
    replyBot st text r = replyStaged st text r := by
  unfold replyBot replyStaged stageIntents stageSmallTalk stageGreeting stageYesNo
  cases hfi : firstIntent text with
  | some hit => simp [hfi, Option.join]
  | none =>
    simp only [hfi, Option.map_none', Option.none_orElse]
    by_cases hA : (searchLast coreHowAreYou (lowerStr text)).isSome
    · simp [hA, Option.join]
    · by_cases hB : (searchLast coreWhereFrom (lowerStr text)).isSome
      · simp [hA, hB, Option.join]
      · cases htok : splitWS (lowerStr text) with
        | nil =>
          by_cases hY : lowerStr text ∈ YES_WORDS
          · simp [hA, hB, htok, hY, Option.join]
          · by_cases hN : lowerStr text ∈ NO_WORDS
            · simp [hA, hB, htok, hY, hN, Option.join]
            · simp [hA, hB, htok, hY, hN, Option.join]
        | cons tok rest =>
          cases rest with
          | nil =>
            by_cases hG : tok ∈ GREET_WORDS
            · simp [hA, hB, htok, hG, Option.join]
            · by_cases hY : lowerStr text ∈ YES_WORDS
              · simp [hA, hB, htok, hG, hY, Option.join]
              · by_cases hN : lowerStr text ∈ NO_WORDS
                · simp [hA, hB, htok, hG, hY, hN, Option.join]
                · simp [hA, hB, htok, hG, hY, hN, Option.join]
          | cons tok2 rest2 =>
            by_cases hY : lowerStr text ∈ YES_WORDS
            · simp [hA, hB, htok, hY, Option.join]
            · by_cases hN : lowerStr text ∈ NO_WORDS
              · simp [hA, hB, htok, hY, hN, Option.join]
              · simp [hA, hB, htok, hY, hN, Option.join]

/-- C8 witness: dispatcher and staged pipeline agree on the concrete input
"yes" (stage 4) with a one-question bank. -/
theorem reply_dispatch_stages_witness :
    replyBot ⟨[["q1".data]], []⟩ "yes".data 0 = replyStaged ⟨[["q1".data]], []⟩ "yes".data 0 :=
  reply_dispatch_stages ⟨[["q1".data]], []⟩ "yes".data 0 (by decide) (by decide)

/-! ### Decimal printer facts -/

theorem digitChar_val (d : Nat) (h : d < 10) : (digitChar d).toNat - 48 = d := by
  interval_cases d <;> rfl

theorem digitChar_isDigit (d : Nat) (h : d < 10) : isDigitChar (digitChar d) = true := by
  interval_cases d <;> rfl

theorem strToNat_append_one (a : Str) (c : Char) :
    strToNat (a ++ [c]) = strToNat a * 10 + (c.toNat - 48) := by
  simp [strToNat, List.foldl_append]

theorem natDigitsAux_spec : ∀ (fuel n : Nat), n < fuel →
    (∀ c ∈ natDigitsAux fuel n, isDigitChar c = true)
    ∧ natDigitsAux fuel n ≠ []
    ∧ strToNat (natDigitsAux fuel n) = n := by
  intro fuel
  induction fuel with
  | zero => intro n h; omega
  | succ f ih =>
    intro n hn
    by_cases h10 : n < 10
    · simp only [natDigitsAux, if_pos h10]
      refine ⟨?_, List.cons_ne_nil _ _, ?_⟩
      · intro c hc
        rcases List.mem_singleton.mp hc with rfl
        exact digitChar_isDigit n h10
      · show strToNat [digitChar n] = n
        simp only [strToNat, List.foldl_cons, List.foldl_nil]
        rw [Nat.zero_mul, Nat.zero_add, digitChar_val n h10]
    · have hdiv : n / 10 < f := by omega
      obtain ⟨ihd, ihne, ihv⟩ := ih (n / 10) hdiv
      simp only [natDigitsAux, if_neg h10]
      refine ⟨?_, by simp, ?_⟩
      · intro c hc
        rcases List.mem_append.mp hc with h | h
        · exact ihd c h
        · rcases List.mem_singleton.mp h with rfl
          exact digitChar_isDigit _ (Nat.mod_lt _ (by omega))
      · rw [strToNat_append_one, ihv, digitChar_val _ (Nat.mod_lt _ (by omega))]
        omega

theorem natDigits_digits (n : Nat) : ∀ c ∈ natDigits n, isDigitChar c = true :=
  (natDigitsAux_spec (n + 1) n (by omega)).1

theorem natDigits_ne_nil (n : Nat) : natDigits n ≠ [] :=
  (natDigitsAux_spec (n + 1) n (by omega)).2.1

theorem strToNat_natDigits (n : Nat) : strToNat (natDigits n) = n :=
  (natDigitsAux_spec (n + 1) n (by omega)).2.2

/-! ### A digit character can start none of the intent cores -/

theorem digit_lc (d : Char) (hd : isDigitChar d = true) : lcChar d = d := by
  simp only [isDigitChar, Bool.and_eq_true, decide_eq_true_eq] at hd
  have h1 : decide (65 ≤ d.toNat) = false := by
    rw [decide_eq_false_iff_not]; omega
  unfold lcChar
  rw [h1]
  simp

theorem digit_head_ne (d c : Char) (hd : isDigitChar d = true)
    (hc : isDigitChar c = false) : lcChar d ≠ c := by
  rw [digit_lc d hd]
  intro heq
  rw [heq] at hd
  rw [hd] at hc
  cases hc

theorem digit_not_ws (d : Char) (hd : isDigitChar d = true) : isWSChar d = false := by
  simp only [isDigitChar, Bool.and_eq_true, decide_eq_true_eq] at hd
  have h1 : decide (d.toNat = 32) = false := by
    rw [decide_eq_false_iff_not]; omega
  have h2 : decide (d.toNat ≤ 13) = false := by
    rw [decide_eq_false_iff_not]; omega
  unfold isWSChar
  rw [h1, h2]
  simp

theorem eatLit_digit_head (p : Char) (ps : Str) (d : Char) (tl : Str)
    (hp : isDigitChar p = false) (hd : isDigitChar d = true) :
    eatLit (p :: ps) (d :: tl) = none := by
  simp [eatLit, digit_head_ne d p hd hp]

theorem etcAlt_digit (d : Char) (tl : Str) (hd : isDigitChar d = true) :
    etcAlt (d :: tl) = none := by
  have h : eatLit "et cetera".data (d :: tl) = none :=
    eatLit_digit_head 'e' "t cetera".data d tl (by decide) hd
  unfold etcAlt
  rw [h]
  rfl

theorem corePlanet_digit (d : Char) (tl : Str) (hd : isDigitChar d = true) :
    corePlanet (d :: tl) = none := by
  have h1 : eatLit "your".data (d :: tl) = none :=
    eatLit_digit_head 'y' "our".data d tl (by decide) hd
  have h2 : eatLit "alien".data (d :: tl) = none :=
    eatLit_digit_head 'a' "lien".data d tl (by decide) hd
  have h3 := etcAlt_digit d tl hd
  unfold corePlanet
  rw [h1, h2, h3]
  rfl

theorem coreWhy_digit (d : Char) (tl : Str) (hd : isDigitChar d = true) :
    coreWhy (d :: tl) = none := by
  have h1 : eatLit "why".data (d :: tl) = none :=
    eatLit_digit_head 'w' "hy".data d tl (by decide) hd
  unfold coreWhy
  rw [h1]
  rfl

theorem coreCube_digit (d : Char) (tl : Str) (hd : isDigitChar d = true) :
    coreCube (d :: tl) = none := by
  have h1 : eatLit "cube".data (d :: tl) = none :=
    eatLit_digit_head 'c' "ube".data d tl (by decide) hd
  unfold coreCube
  rw [h1]

/-! ### The two claimed cube inputs and the intent loop on them -/

theorem searchLast_none {α : Type} (core : Str → Option α) (s : Str)
    (h : ∀ l, l <:+ s → core l = none) : searchLast core s = none :=
  searchLastAux_none core s false h

theorem takeWhile_all {p : Char → Bool} : ∀ (l : Str), (∀ c ∈ l, p c = true) →
    l.takeWhile p = l ∧ l.dropWhile p = [] := by
  intro l
  induction l with
  | nil => intro _; exact ⟨rfl, rfl⟩
  | cons c tl ih =>
    intro h
    have hc := h c (List.mem_cons_self c tl)
    obtain ⟨h1, h2⟩ := ih (fun x hx => h x (List.mem_cons_of_mem c hx))
    rw [List.takeWhile_cons, List.dropWhile_cons]
    exact ⟨by rw [if_pos hc, h1], by rw [if_pos hc, h2]⟩

theorem eatWS1_space_digit (d : Char) (tl : Str) (hd : isDigitChar d = true) :
    eatWS1 (' ' :: d :: tl) = some (d :: tl) := by
  have hws : eatWS1 (' ' :: d :: tl) = some ((d :: tl).dropWhile isWSChar) := rfl
  rw [hws, List.dropWhile_cons, if_neg (by rw [digit_not_ws d hd]; simp)]

theorem cubeTail_pos (d : Char) (tl : Str) (hd : isDigitChar d = true)
    (htl : ∀ c ∈ tl, isDigitChar c = true) :
    cubeTail (' ' :: d :: tl) = some (d :: tl) := by
  have hall : ∀ c ∈ d :: tl, isDigitChar c = true := by
    intro c hc
    rcases List.mem_cons.mp hc with rfl | hmem
    · exact hd
    · exact htl c hmem
  obtain ⟨htake, hdrop⟩ := takeWhile_all (d :: tl) hall
  unfold cubeTail
  simp only [eatWS1_space_digit d tl hd]
  unfold takeDigits1
  simp only [htake, hdrop]
  rfl

theorem cubeTheNumber_noThe (d : Char) (tl : Str) (hd : isDigitChar d = true) :
    cubeTheNumber (' ' :: d :: tl) = none := by
  have hthe : eatLit "the".data (d :: tl) = none :=
    eatLit_digit_head 't' "he".data d tl (by decide) hd
  unfold cubeTheNumber
  simp only [eatWS1_space_digit d tl hd, hthe]

theorem coreCube_pos1 (ds : Str) (hne : ds ≠ [])
    (hds : ∀ c ∈ ds, isDigitChar c = true) :
    coreCube ("cube ".data ++ ds) = some ds := by
  obtain ⟨d, tl, rfl⟩ := List.exists_cons_of_ne_nil hne
  have hd := hds d (List.mem_cons_self d tl)
  have htl : ∀ c ∈ tl, isDigitChar c = true :=
    fun c hc => hds c (List.mem_cons_of_mem d hc)
  have h1 : eatLit "cube".data ("cube ".data ++ (d :: tl)) = some (' ' :: d :: tl) := rfl
  unfold coreCube
  simp only [h1, cubeTheNumber_noThe d tl hd, cubeTail_pos d tl hd htl]

theorem coreCube_pos2 (ds : Str) (hne : ds ≠ [])
    (hds : ∀ c ∈ ds, isDigitChar c = true) :
    coreCube ("cube the number ".data ++ ds) = some ds := by
  obtain ⟨d, tl, rfl⟩ := List.exists_cons_of_ne_nil hne
  have hd := hds d (List.mem_cons_self d tl)
  have htl : ∀ c ∈ tl, isDigitChar c = true :=
    fun c hc => hds c (List.mem_cons_of_mem d hc)
  have h1 : eatLit "cube".data ("cube the number ".data ++ (d :: tl))
      = some (" the number ".data ++ (d :: tl)) := rfl
  have h2 : cubeTheNumber (" the number ".data ++ (d :: tl)) = some (d :: tl) := by
    have e1 : eatWS1 (" the number ".data ++ (d :: tl))
        = some ("the number ".data ++ (d :: tl)) := rfl
    have e2 : eatLit "the".data ("the number ".data ++ (d :: tl))
        = some (" number ".data ++ (d :: tl)) := rfl
    have e3 : eatWS1 (" number ".data ++ (d :: tl))
        = some ("number ".data ++ (d :: tl)) := rfl
    have e4 : eatLit "number".data ("number ".data ++ (d :: tl))
        = some (' ' :: d :: tl) := rfl
    unfold cubeTheNumber
    simp only [e1, e2, e3, e4, cubeTail_pos d tl hd htl]
  unfold coreCube
  simp only [h1, h2]

theorem corePlanet_none1 (ds : Str) (hds : ∀ c ∈ ds, isDigitChar c = true) :
    ∀ l, l <:+ "cube ".data ++ ds → corePlanet l = none := by
  intro l hl
  rcases suffix_append_cases "cube ".data ds l hl with hsub | ⟨q, hq, hqne, rfl⟩
  · cases l with
    | nil => rfl
    | cons c tl =>
      exact corePlanet_digit c tl (hds c (hsub.subset (List.mem_cons_self c tl)))
  · have hqmem : q ∈ ("cube ".data).tails := (List.mem_tails _ _).mpr hq
    rw [show ("cube ".data).tails
        = ["cube ".data, "ube ".data, "be ".data, "e ".data, " ".data, []] from rfl] at hqmem
    simp only [List.mem_cons, List.not_mem_nil, or_false] at hqmem
    rcases hqmem with rfl | rfl | rfl | rfl | rfl | rfl
    · rfl
    · rfl
    · rfl
    · rfl
    · rfl
    · cases hqne rfl

theorem coreWhy_none1 (ds : Str) (hds : ∀ c ∈ ds, isDigitChar c = true) :
    ∀ l, l <:+ "cube ".data ++ ds → coreWhy l = none := by
  intro l hl
  rcases suffix_append_cases "cube ".data ds l hl with hsub | ⟨q, hq, hqne, rfl⟩
  · cases l with
    | nil => rfl
    | cons c tl =>
      exact coreWhy_digit c tl (hds c (hsub.subset (List.mem_cons_self c tl)))
  · have hqmem : q ∈ ("cube ".data).tails := (List.mem_tails _ _).mpr hq
    rw [show ("cube ".data).tails
        = ["cube ".data, "ube ".data, "be ".data, "e ".data, " ".data, []] from rfl] at hqmem
    simp only [List.mem_cons, List.not_mem_nil, or_false] at hqmem
    rcases hqmem with rfl | rfl | rfl | rfl | rfl | rfl
    · rfl
    · rfl
    · rfl
    · rfl
    · rfl
    · cases hqne rfl

theorem coreCube_proper1 (ds : Str) (hds : ∀ c ∈ ds, isDigitChar c = true) :
    ∀ l, l <:+ "cube ".data ++ ds → l ≠ "cube ".data ++ ds → coreCube l = none := by
  intro l hl hlne
  rcases suffix_append_cases "cube ".data ds l hl with hsub | ⟨q, hq, hqne, rfl⟩
  · cases l with
    | nil => rfl
    | cons c tl =>
      exact coreCube_digit c tl (hds c (hsub.subset (List.mem_cons_self c tl)))
  · have hqmem : q ∈ ("cube ".data).tails := (List.mem_tails _ _).mpr hq
    rw [show ("cube ".data).tails
        = ["cube ".data, "ube ".data, "be ".data, "e ".data, " ".data, []] from rfl] at hqmem
    simp only [List.mem_cons, List.not_mem_nil, or_false] at hqmem
    rcases hqmem with rfl | rfl | rfl | rfl | rfl | rfl
    · cases hlne rfl
    · rfl
    · rfl
    · rfl
    · rfl
    · cases hqne rfl

theorem corePlanet_none2 (ds : Str) (hds : ∀ c ∈ ds, isDigitChar c = true) :
    ∀ l, l <:+ "cube the number ".data ++ ds → corePlanet l = none := by
  intro l hl
  rcases suffix_append_cases "cube the number ".data ds l hl with hsub | ⟨q, hq, hqne, rfl⟩
  · cases l with
    | nil => rfl
    | cons c tl =>
      exact corePlanet_digit c tl (hds c (hsub.subset (List.mem_cons_self c tl)))
  · have hqmem : q ∈ ("cube the number ".data).tails := (List.mem_tails _ _).mpr hq
    rw [show ("cube the number ".data).tails
        = ["cube the number ".data, "ube the number ".data, "be the number ".data,
           "e the number ".data, " the number ".data, "the number ".data,
           "he number ".data, "e number ".data, " number ".data, "number ".data,
           "umber ".data, "mber ".data, "ber ".data, "er ".data, "r ".data,
           " ".data, []] from rfl] at hqmem
    simp only [List.mem_cons, List.not_mem_nil, or_false] at hqmem
    rcases hqmem with rfl | rfl | rfl | rfl | rfl | rfl | rfl | rfl | rfl | rfl | rfl |
      rfl | rfl | rfl | rfl | rfl | rfl
    · rfl
    · rfl
    · rfl
    · rfl
    · rfl
    · rfl
    · rfl
    · rfl
    · rfl
    · rfl
    · rfl
    · rfl
    · rfl
    · rfl
    · rfl
    · rfl
    · cases hqne rfl

theorem coreWhy_none2 (ds : Str) (hds : ∀ c ∈ ds, isDigitChar c = true) :
    ∀ l, l <:+ "cube the number ".data ++ ds → coreWhy l = none := by
  intro l hl
  rcases suffix_append_cases "cube the number ".data ds l hl with hsub | ⟨q, hq, hqne, rfl⟩
  · cases l with
    | nil => rfl
    | cons c tl =>
      exact coreWhy_digit c tl (hds c (hsub.subset (List.mem_cons_self c tl)))
  · have hqmem : q ∈ ("cube the number ".data).tails := (List.mem_tails _ _).mpr hq
    rw [show ("cube the number ".data).tails
        = ["cube the number ".data, "ube the number ".data, "be the number ".data,
           "e the number ".data, " the number ".data, "the number ".data,
           "he number ".data, "e number ".data, " number ".data, "number ".data,
           "umber ".data, "mber ".data, "ber ".data, "er ".data, "r ".data,
           " ".data, []] from rfl] at hqmem
    simp only [List.mem_cons, List.not_mem_nil, or_false] at hqmem
    rcases hqmem with rfl | rfl | rfl | rfl | rfl | rfl | rfl | rfl | rfl | rfl | rfl |
      rfl | rfl | rfl | rfl | rfl | rfl
    · rfl
    · rfl
    · rfl
    · rfl
    · rfl
    · rfl
    · rfl
    · rfl
    · rfl
    · rfl
    · rfl
    · rfl
    · rfl
    · rfl
    · rfl
    · rfl
    · cases hqne rfl

theorem coreCube_proper2 (ds : Str) (hds : ∀ c ∈ ds, isDigitChar c = true) :
    ∀ l, l <:+ "cube the number ".data ++ ds →
      l ≠ "cube the number ".data ++ ds → coreCube l = none := by
  intro l hl hlne
  rcases suffix_append_cases "cube the number ".data ds l hl with hsub | ⟨q, hq, hqne, rfl⟩
  · cases l with
    | nil => rfl
    | cons c tl =>
      exact coreCube_digit c tl (hds c (hsub.subset (List.mem_cons_self c tl)))
  · have hqmem : q ∈ ("cube the number ".data).tails := (List.mem_tails _ _).mpr hq
    rw [show ("cube the number ".data).tails
        = ["cube the number ".data, "ube the number ".data, "be the number ".data,
           "e the number ".data, " the number ".data, "the number ".data,
           "he number ".data, "e number ".data, " number ".data, "number ".data,
           "umber ".data, "mber ".data, "ber ".data, "er ".data, "r ".data,
           " ".data, []] from rfl] at hqmem
    simp only [List.mem_cons, List.not_mem_nil, or_false] at hqmem
    rcases hqmem with rfl | rfl | rfl | rfl | rfl | rfl | rfl | rfl | rfl | rfl | rfl |
      rfl | rfl | rfl | rfl | rfl | rfl
    · cases hlne rfl
    · rfl
    · rfl
    · rfl
    · rfl
    · rfl
    · rfl
    · rfl
    · rfl
    · rfl
    · rfl
    · rfl
    · rfl
    · rfl
    · rfl
    · rfl
    · cases hqne rfl

theorem firstIntent_cube1 (n : Nat) :
    firstIntent ("cube ".data ++ natDigits n) = some (IntentHit.cube (natDigits n)) := by
  have hds := natDigits_digits n
  have hne := natDigits_ne_nil n
  have hplanet : searchLast corePlanet ("cube ".data ++ natDigits n) = none :=
    searchLast_none _ _ (corePlanet_none1 _ hds)
  have hwhy : searchLast coreWhy ("cube ".data ++ natDigits n) = none :=
    searchLast_none _ _ (coreWhy_none1 _ hds)
  have hcube : searchLast coreCube ("cube ".data ++ natDigits n) = some (natDigits n) :=
    searchLast_eq_head _ _ _ (coreCube_pos1 _ hne hds) (coreCube_proper1 _ hds)
  unfold firstIntent
  rw [hplanet, hwhy, hcube]
  rfl

theorem firstIntent_cube2 (n : Nat) :
    firstIntent ("cube the number ".data ++ natDigits n)
      = some (IntentHit.cube (natDigits n)) := by
  have hds := natDigits_digits n
  have hne := natDigits_ne_nil n
  have hplanet : searchLast corePlanet ("cube the number ".data ++ natDigits n) = none :=
    searchLast_none _ _ (corePlanet_none2 _ hds)
  have hwhy : searchLast coreWhy ("cube the number ".data ++ natDigits n) = none :=
    searchLast_none _ _ (coreWhy_none2 _ hds)
  have hcube : searchLast coreCube ("cube the number ".data ++ natDigits n)
      = some (natDigits n) :=
    searchLast_eq_head _ _ _ (coreCube_pos2 _ hne hds) (coreCube_proper2 _ hds)
  unfold firstIntent
  rw [hplanet, hwhy, hcube]
  rfl

/-- C4: for every natural number N, both cube-intent inputs "cube N" and
"cube the number N" (N printed in decimal) produce exactly the reply
`N cubed is N**3. Isn’t that cool?` with the cube computed exactly, and the
decimal of `N**3` occurs in the reply. -/
theorem cube_intent_exact (n : Nat) (st : BotState) (r : Nat) :
    replyBot st ("cube ".data ++ natDigits n) r = some (cubeMsg n, st)
    ∧ replyBot st ("cube the number ".data ++ natDigits n) r = some (cubeMsg n, st)
    ∧ natDigits (n ^ 3) <:+: cubeMsg n := by
  have key : ∀ text, firstIntent text = some (IntentHit.cube (natDigits n)) →
      replyBot st text r = some (cubeMsg n, st) := by
    intro text hfi
    have hr : replyBot st text r = runIntent st (IntentHit.cube (natDigits n)) r := by
      unfold replyBot
      rw [hfi]
    rw [hr]
    show (pyInt (natDigits n)).map (fun m => (cubeMsg m, st)) = some (cubeMsg n, st)
    have hpy : pyInt (natDigits n) = some n := by
      unfold pyInt
      rw [if_pos ⟨natDigits_ne_nil n, by rw [List.all_eq_true]; exact natDigits_digits n⟩]
      rw [strToNat_natDigits]
    rw [hpy]
    rfl
  refine ⟨key _ (firstIntent_cube1 n), key _ (firstIntent_cube2 n), ?_⟩
  exact ⟨natDigits n ++ " cubed is ".data, ". Isn’t that cool?".data,
    by simp [cubeMsg, List.append_assoc]⟩

end AlienBotModel
